import Mathlib

set_option autoImplicit false

/-!
Shallow embedding of the reviewed Highcharts Dashboards core:
`DataTableCore` (src/unnamed/part_001), `Sync`
(src/ts/Dashboards/Components/Sync/Sync.ts) and `EditToolbar`
(src/ts/Dashboard/EditMode/Toolbar/EditToolbar.ts).

JS plain objects with string keys are modelled as association lists in
property insertion order (the claims only use non-integer-like keys, for
which JS guarantees insertion order in `objectEach` / `Object.keys`).
JS arrays are lists of `Option` cells, where `none` models an empty slot
or a stored `undefined`; both read back as `undefined`.  The TS `number`
cells are modelled as `Int` (the claims only use integral values).
`uniqueKey` is modelled by a per-table counter `keyCounter`: each call
returns the current counter and increments it, so distinct calls return
distinct values as long as `versionTag < keyCounter`, which construction
establishes.  `fireEvent` is modelled by appending the event name to an
instrumentation log `firedEvents`.
-/

namespace Highcharts

/-- Possible value types for a table cell, from the TS union
boolean, number, null, string; `undefined` is modelled at the `Cell`
level by `Option`. -/
inductive CellValue where
  | boolVal (b : Bool)
  | numVal (n : Int)
  | nullVal
  | strVal (s : String)
  deriving DecidableEq, Repr

/-- One slot of a JS array of cells: `none` is an empty slot or a stored
undefined value. -/
abbrev Cell := Option CellValue

/-- A column: a JS array of cells, holes included. -/
abbrev Column := List Cell

/-- A JS plain object with string keys, kept in property insertion
order. -/
abbrev JSObj (α : Type) := List (String × α)

/-- JS property read, such as this.columns[columnName]: the value at the
key, or `none` when the property is absent. -/
def jsGet {α : Type} : JSObj α → String → Option α
  | [], _ => none
  | p :: rest, k => if p.1 = k then some p.2 else jsGet rest k

/-- JS property write, such as columns[columnName] = column: replaces the
value in place when the key exists, otherwise appends the new property at
the end (JS insertion order). -/
def jsSet {α : Type} : JSObj α → String → α → JSObj α
  | [], k, v => [(k, v)]
  | p :: rest, k, v =>
    if p.1 = k then (k, v) :: rest else p :: jsSet rest k v

/-- JS column.length = n assignment: truncates, or pads with empty
slots. -/
def Column.setLength (c : Column) (n : Nat) : Column :=
  c.take n ++ List.replicate (n - c.length) none

/-- JS column[i] = v: updates in range, otherwise pads with empty slots
up to index i and stores v there, giving length i + 1. -/
def Column.setIdx (c : Column) (i : Nat) (v : Cell) : Column :=
  if i < c.length then c.set i v
  else c ++ List.replicate (i - c.length) none ++ [v]

/-- JS column.splice(i, 0, v): inserts v at index min(i, length),
shifting later cells up by one position. -/
def Column.spliceIns (c : Column) (i : Nat) (v : Cell) : Column :=
  c.take i ++ v :: c.drop i

/-- The state of a `DataTableCore` instance (part_001, lines 56-118).
`modified` is a self reference in the source and is omitted;
`versionTag` and `keyCounter` model the `uniqueKey` counter;
`firedEvents` is the `fireEvent` instrumentation log. -/
structure DataTableCore where
  columns : JSObj Column
  rowCount : Nat
  versionTag : Nat
  keyCounter : Nat
  autoId : Bool
  id : String
  firedEvents : List String
  deriving DecidableEq, Repr

namespace DataTableCore

/-- applyRowCount (part_001, lines 132-141): sets `rowCount` and adjusts
the length of all columns.  The source skips typed arrays via `isArray`;
every column representable in this model is a plain array. -/
def applyRowCount (t : DataTableCore) (rc : Nat) : DataTableCore :=
  { t with
    rowCount := rc
    columns := t.columns.map (fun p => (p.1, Column.setLength p.2 rc)) }

/-- The tail of the mutators (part_001, lines 268-271 and 300-303): when
the event detail is not marked silent, fire the event and refresh the
version tag from `uniqueKey`. -/
def fireAndTag (t : DataTableCore) (eventName : String) (silent : Bool) :
    DataTableCore :=
  if silent then t
  else
    { t with
      firedEvents := t.firedEvents ++ [eventName]
      versionTag := t.keyCounter
      keyCounter := t.keyCounter + 1 }

/-- DataTableCore constructor (part_001, lines 64-98): copies each
options column via slice (value copy in this model), takes the running
maximum of the column lengths, then applies it as the row count.
`k0` seeds the `uniqueKey` counter; an absent or empty options id is
falsy in JS, so it produces a generated id and `autoId = true`. -/
def mkDataTableCore (optColumns : JSObj Column) (optId : Option String)
    (k0 : Nat) : DataTableCore :=
  let idTruthy : Bool := match optId with
    | none => false
    | some s => !s.isEmpty
  let idStr : String :=
    if idTruthy then optId.getD "" else "highcharts-" ++ toString k0
  let k1 : Nat := if idTruthy then k0 else k0 + 1
  let acc : JSObj Column × Nat :=
    optColumns.foldl
      (fun acc p => (jsSet acc.1 p.1 p.2, max acc.2 p.2.length))
      (([] : JSObj Column), 0)
  applyRowCount
    { columns := acc.1
      rowCount := 0
      versionTag := k1
      keyCounter := k1 + 1
      autoId := !idTruthy
      id := idStr
      firedEvents := [] }
    acc.2

/-- getColumn (part_001, lines 153-159): the column, or `none` when
unknown. -/
def getColumn (t : DataTableCore) (columnName : String) : Option Column :=
  jsGet t.columns columnName

/-- getColumns (part_001, lines 172-184): reduce over the requested
names (default: all keys); a missing name stores an undefined value. -/
def getColumns (t : DataTableCore) (columnNames : Option (List String)) :
    JSObj (Option Column) :=
  (columnNames.getD (t.columns.map Prod.fst)).foldl
    (fun acc name => jsSet acc name (jsGet t.columns name)) []

/-- getRow (part_001, lines 198-205): map each requested name (default:
all keys) to this.columns[key]?.[rowIndex]; a missing column or an
out-of-range index yields an undefined entry. -/
def getRow (t : DataTableCore) (rowIndex : Nat)
    (columnNames : Option (List String)) : List Cell :=
  (columnNames.getD (t.columns.map Prod.fst)).map
    (fun key => (jsGet t.columns key).bind (fun col => col.getD rowIndex none))

/-- setColumns (part_001, lines 254-272): for each supplied column, in
enumeration order, store a slice copy and overwrite the running row
count with that column's length; then apply the final row count, and
fire and retag unless silent.  The `rowIndex` parameter of the source is
unused in its body and is omitted. -/
def setColumns (t : DataTableCore) (columns : JSObj Column)
    (silent : Bool) : DataTableCore :=
  let acc : JSObj Column × Nat :=
    columns.foldl
      (fun acc p => (jsSet acc.1 p.1 p.2, p.2.length))
      (t.columns, t.rowCount)
  fireAndTag (applyRowCount { t with columns := acc.1 } acc.2)
    "afterSetColumns" silent

/-- setColumn (part_001, lines 227-234): delegates to `setColumns` with
a single-property collection; its rowIndex argument is ignored by the
simplified `setColumns`. -/
def setColumn (t : DataTableCore) (columnName : String) (column : Column)
    (silent : Bool) : DataTableCore :=
  setColumns t [(columnName, column)] silent

/-- The body of the objectEach loop of setRow (part_001, lines 286-294):
fetch the column or create `new Array(indexRowCount)`, then either
splice-insert or write in place, and store the column back. -/
def setRowStep (rowIndex indexRowCount : Nat) (insert : Bool)
    (cs : JSObj Column) (p : String × Cell) : JSObj Column :=
  let column := (jsGet cs p.1).getD (List.replicate indexRowCount none)
  jsSet cs p.1
    (if insert then Column.spliceIns column rowIndex p.2
     else Column.setIdx column rowIndex p.2)

/-- setRow (part_001, lines 277-304): rowIndex defaults to the current
row count; indexRowCount is rowCount + 1 when inserting, else
rowIndex + 1; each named cell is inserted or overwritten; the row count
is applied only when indexRowCount exceeds it; then fire and retag
unless silent. -/
def setRow (t : DataTableCore) (row : JSObj Cell)
    (rowIndexOpt : Option Nat) (insert : Bool) (silent : Bool) :
    DataTableCore :=
  let rowIndex := rowIndexOpt.getD t.rowCount
  let indexRowCount := if insert then t.rowCount + 1 else rowIndex + 1
  let cs := row.foldl (setRowStep rowIndex indexRowCount insert) t.columns
  let t1 := { t with columns := cs }
  let t2 :=
    if t.rowCount < indexRowCount then applyRowCount t1 indexRowCount else t1
  fireAndTag t2 "afterSetRows" silent

end DataTableCore

/-- A sync handler configuration tuple [id, presentationStateTrigger,
func] (Sync.ts, lines 33-37); the two callback positions are opaque and
modelled by a single payload.  `new SyncHandler(...)` stores the tuple
fields verbatim, so the constructed instance is the same data. -/
structure HandlerConfig where
  id : String
  payload : Nat
  deriving DecidableEq, Repr

/-- A sync emitter configuration tuple [id, func] (Sync.ts, line 32). -/
structure EmitterConfig where
  id : String
  payload : Nat
  deriving DecidableEq, Repr

/-- An instance constructed by `new SyncHandler(...handlerConfig)`. -/
abbrev SyncHandler := HandlerConfig

/-- An instance constructed by `new SyncEmitter(...emitterConfig)`. -/
abbrev SyncEmitter := EmitterConfig

/-- The TS field type EmitterConfig | null | boolean (and likewise for
handlers): `absent` covers undefined, null and false, all falsy;
`boolTrue` selects the default configuration; `config` is a tuple. -/
inductive SyncConfigOpt (α : Type) where
  | absent
  | boolTrue
  | config (c : α)
  deriving DecidableEq, Repr

/-- One entry of a sync options record (Sync.ts, lines 38-55). -/
structure SyncOptionsEntry where
  emitter : SyncConfigOpt EmitterConfig
  handler : SyncConfigOpt HandlerConfig
  deriving DecidableEq, Repr

/-- The state of a `Sync` instance (Sync.ts, lines 66-231).  The host
component is opaque and omitted.  `handlerConstructions` counts every
`new SyncHandler(...)` evaluation, `handlerCreates` logs every
handler.create(component) invocation by handler id; likewise for
emitters. -/
structure Sync where
  syncConfig : JSObj SyncOptionsEntry
  registeredSyncHandlers : JSObj SyncHandler
  registeredSyncEmitters : JSObj SyncEmitter
  isSyncing : Bool
  handlerConstructions : Nat
  emitterConstructions : Nat
  handlerCreates : List String
  emitterCreates : List String
  deriving DecidableEq, Repr

namespace Sync

/-- The Sync constructor (Sync.ts, lines 155-164): stores the config and
starts with empty registries and isSyncing = false. -/
def mkSync (syncConfig : JSObj SyncOptionsEntry) : Sync :=
  { syncConfig := syncConfig
    registeredSyncHandlers := []
    registeredSyncEmitters := []
    isSyncing := false
    handlerConstructions := 0
    emitterConstructions := 0
    handlerCreates := []
    emitterCreates := [] }

/-- registerSyncHandler (Sync.ts, lines 103-106). -/
def registerSyncHandler (s : Sync) (handler : SyncHandler) : Sync :=
  { s with
    registeredSyncHandlers := jsSet s.registeredSyncHandlers handler.id handler }

/-- registerSyncEmitter (Sync.ts, lines 80-83). -/
def registerSyncEmitter (s : Sync) (emitter : SyncEmitter) : Sync :=
  { s with
    registeredSyncEmitters := jsSet s.registeredSyncEmitters emitter.id emitter }

/-- isRegisteredHandler (Sync.ts, lines 117-119). -/
def isRegisteredHandler (s : Sync) (handlerID : String) : Bool :=
  (jsGet s.registeredSyncHandlers handlerID).isSome

/-- isRegisteredEmitter (Sync.ts, lines 94-96). -/
def isRegisteredEmitter (s : Sync) (id : String) : Bool :=
  (jsGet s.registeredSyncEmitters id).isSome

/-- Resolution of the handler half of an options entry inside start()
(Sync.ts, lines 177-184): a falsy value skips the half (inner `none`); a
boolean true reads Sync.defaultHandlers[id].handler, which faults (outer
`none`) when the default entry is missing or its handler is not a
configuration tuple; a tuple is used as is. -/
def resolveHandlerCfg (defaults : JSObj SyncOptionsEntry) (id : String) :
    SyncConfigOpt HandlerConfig → Option (Option HandlerConfig)
  | .absent => some none
  | .boolTrue =>
    match jsGet defaults id with
    | none => none
    | some e =>
      match e.handler with
      | .config c => some (some c)
      | _ => none
  | .config c => some (some c)

/-- Resolution of the emitter half of an options entry inside start()
(Sync.ts, lines 192-197), mirroring `resolveHandlerCfg`. -/
def resolveEmitterCfg (defaults : JSObj SyncOptionsEntry) (id : String) :
    SyncConfigOpt EmitterConfig → Option (Option EmitterConfig)
  | .absent => some none
  | .boolTrue =>
    match jsGet defaults id with
    | none => none
    | some e =>
      match e.emitter with
      | .config c => some (some c)
      | _ => none
  | .config c => some (some c)

/-- The handler half of one start() iteration (Sync.ts, lines 177-190):
resolve the configuration, evaluate `new SyncHandler(...)`, and only
then, when the handler id is not yet registered, register it and invoke
its create hook. -/
def startHandlerPart (defaults : JSObj SyncOptionsEntry) (id : String)
    (hcfg : SyncConfigOpt HandlerConfig) (s : Sync) : Option Sync :=
  match resolveHandlerCfg defaults id hcfg with
  | none => none
  | some none => some s
  | some (some hc) =>
    let s1 := { s with handlerConstructions := s.handlerConstructions + 1 }
    some
      (if isRegisteredHandler s1 hc.id then s1
       else
         { registerSyncHandler s1 hc with
           handlerCreates := s1.handlerCreates ++ [hc.id] })

/-- The emitter half of one start() iteration (Sync.ts, lines 192-203),
mirroring `startHandlerPart`. -/
def startEmitterPart (defaults : JSObj SyncOptionsEntry) (id : String)
    (ecfg : SyncConfigOpt EmitterConfig) (s : Sync) : Option Sync :=
  match resolveEmitterCfg defaults id ecfg with
  | none => none
  | some none => some s
  | some (some ec) =>
    let s1 := { s with emitterConstructions := s.emitterConstructions + 1 }
    some
      (if isRegisteredEmitter s1 ec.id then s1
       else
         { registerSyncEmitter s1 ec with
           emitterCreates := s1.emitterCreates ++ [ec.id] })

/-- One iteration of the Object.keys(syncConfig).forEach loop of start()
(Sync.ts, lines 171-205). -/
def startStep (defaults cfg : JSObj SyncOptionsEntry) (os : Option Sync)
    (id : String) : Option Sync :=
  os.bind fun s =>
    let entry :=
      (jsGet cfg id).getD { emitter := .absent, handler := .absent }
    (startHandlerPart defaults id entry.handler s).bind
      (startEmitterPart defaults id entry.emitter)

/-- start (Sync.ts, lines 169-207): iterate the config keys, then set
isSyncing; `none` models the unguarded attribute-access fault on a
malformed boolean configuration. -/
def start (defaults : JSObj SyncOptionsEntry) (s : Sync) : Option Sync :=
  ((s.syncConfig.map Prod.fst).foldl (startStep defaults s.syncConfig)
      (some s)).map
    fun s1 => { s1 with isSyncing := true }

/-- stop (Sync.ts, lines 212-229): remove() and delete every registered
handler and emitter, then clear isSyncing. -/
def stop (s : Sync) : Sync :=
  { s with
    registeredSyncHandlers := []
    registeredSyncEmitters := []
    isSyncing := false }

end Sync

/-- The state of an `EditToolbar` (EditToolbar.ts): the container is
modelled by its left and top style strings; the menu, edit mode and
options are opaque and omitted. -/
structure EditToolbar where
  containerLeft : String
  containerTop : String
  isVisible : Bool
  deriving DecidableEq, Repr

namespace EditToolbar

/-- The JS expression (x || sentinel) + px of setPosition: an undefined
or zero coordinate is falsy and maps to the off-screen sentinel. -/
def coordStyle (x : Option Int) : String :=
  (match x with
   | some n => if n = 0 then "-9999" else toString n
   | none => "-9999") ++ "px"

/-- setPosition (EditToolbar.ts, lines 62-76): writes the left and top
styles and sets isVisible to defined(x) && defined(y); `none` models an
undefined (or null) coordinate, which Highcharts defined rejects. -/
def setPosition (tb : EditToolbar) (x y : Option Int) : EditToolbar :=
  { tb with
    containerLeft := coordStyle x
    containerTop := coordStyle y
    isVisible := x.isSome && y.isSome }

/-- hide (EditToolbar.ts, lines 58-60): setPosition(void 0, void 0). -/
def hide (tb : EditToolbar) : EditToolbar :=
  setPosition tb none none

end EditToolbar

/-! Lemmas about the JS object and array primitives. -/

theorem jsGet_eq_none_iff {α : Type} (o : JSObj α) (k : String) :
    jsGet o k = none ↔ k ∉ o.map Prod.fst := by
  induction o with
  | nil => simp [jsGet]
  | cons p rest ih =>
    by_cases hp : p.1 = k
    · simp [jsGet, hp]
    · simp [jsGet, hp, ih, Ne.symm hp]

theorem jsGet_mem {α : Type} {o : JSObj α} {k : String} {v : α}
    (h : jsGet o k = some v) : (k, v) ∈ o := by
  induction o with
  | nil => simp [jsGet] at h
  | cons p rest ih =>
    by_cases hp : p.1 = k
    · rw [jsGet, if_pos hp] at h
      have hkv : (k, v) = p := by cases p; simp_all
      rw [hkv]
      exact List.mem_cons_self p rest
    · rw [jsGet, if_neg hp] at h
      exact List.mem_cons_of_mem p (ih h)

theorem jsGet_jsSet_self {α : Type} (o : JSObj α) (k : String) (v : α) :
    jsGet (jsSet o k v) k = some v := by
  induction o with
  | nil => simp [jsGet, jsSet]
  | cons p rest ih =>
    by_cases hp : p.1 = k
    · simp [jsGet, jsSet, hp]
    · simp [jsGet, jsSet, hp, ih]

theorem jsGet_jsSet_ne {α : Type} (o : JSObj α) (k k' : String) (v : α)
    (h : k' ≠ k) : jsGet (jsSet o k v) k' = jsGet o k' := by
  induction o with
  | nil => simp [jsGet, jsSet, Ne.symm h]
  | cons p rest ih =>
    by_cases hp : p.1 = k
    · rw [jsSet, if_pos hp, jsGet, jsGet, ← hp, if_neg (hp ▸ Ne.symm h)]
      rw [if_neg (hp ▸ Ne.symm h)]
    · rw [jsSet, if_neg hp, jsGet, jsGet]
      by_cases hpk' : p.1 = k'
      · rw [if_pos hpk', if_pos hpk']
      · rw [if_neg hpk', if_neg hpk', ih]

theorem mem_jsSet {α : Type} {o : JSObj α} {k : String} {v : α} {p : String × α}
    (h : p ∈ jsSet o k v) : p = (k, v) ∨ p ∈ o := by
  induction o with
  | nil => simp [jsSet] at h; simp [h]
  | cons q rest ih =>
    by_cases hq : q.1 = k
    · rw [jsSet, if_pos hq] at h
      rcases List.mem_cons.mp h with h1 | h1
      · exact Or.inl h1
      · exact Or.inr (List.mem_cons_of_mem q h1)
    · rw [jsSet, if_neg hq] at h
      rcases List.mem_cons.mp h with h1 | h1
      · exact Or.inr (h1 ▸ List.mem_cons_self q rest)
      · rcases ih h1 with h2 | h2
        · exact Or.inl h2
        · exact Or.inr (List.mem_cons_of_mem q h2)

theorem isSome_jsGet_jsSet {α : Type} (o : JSObj α) (k k' : String) (v : α)
    (h : (jsGet o k').isSome) : (jsGet (jsSet o k v) k').isSome := by
  by_cases hk : k' = k
  · rw [hk, jsGet_jsSet_self]
    rfl
  · rw [jsGet_jsSet_ne o k k' v hk]
    exact h

theorem jsSet_of_not_mem {α : Type} (o : JSObj α) (k : String) (v : α)
    (h : jsGet o k = none) : jsSet o k v = o ++ [(k, v)] := by
  induction o with
  | nil => simp [jsSet]
  | cons p rest ih =>
    rw [jsGet] at h
    by_cases hp : p.1 = k
    · rw [if_pos hp] at h
      exact absurd h (by simp)
    · rw [if_neg hp] at h
      rw [jsSet, if_neg hp, ih h, List.cons_append]

theorem map_fst_jsSet_of_some {α : Type} (o : JSObj α) (k : String) (v : α)
    (h : (jsGet o k).isSome) :
    (jsSet o k v).map Prod.fst = o.map Prod.fst := by
  induction o with
  | nil => simp [jsGet] at h
  | cons p rest ih =>
    rw [jsGet] at h
    by_cases hp : p.1 = k
    · rw [jsSet, if_pos hp]
      simp [hp]
    · rw [if_neg hp] at h
      rw [jsSet, if_neg hp]
      simp [ih h]

theorem getD_none_of_le (c : Column) (j : Nat) (h : c.length ≤ j) :
    c.getD j none = none := by
  rw [List.getD_eq_getElem?_getD, List.getElem?_eq_none h]
  rfl

theorem length_setLength (c : Column) (n : Nat) :
    (Column.setLength c n).length = n := by
  unfold Column.setLength
  rw [List.length_append, List.length_take, List.length_replicate]
  omega

theorem getD_setLength (c : Column) (n j : Nat) (h : j < n) :
    (Column.setLength c n).getD j none = c.getD j none := by
  unfold Column.setLength
  by_cases hj : j < c.length
  · rw [List.getD_eq_getElem?_getD,
      List.getElem?_append_left (by rw [List.length_take]; omega),
      List.getElem?_take_of_lt h, ← List.getD_eq_getElem?_getD]
  · rw [getD_none_of_le c j (by omega), List.getD_eq_getElem?_getD,
      List.getElem?_append_right (by rw [List.length_take]; omega),
      List.getElem?_replicate]
    split <;> rfl

theorem length_setIdx (c : Column) (i : Nat) (v : Cell) :
    (Column.setIdx c i v).length = max c.length (i + 1) := by
  unfold Column.setIdx
  by_cases h : i < c.length
  · rw [if_pos h, List.length_set]
    omega
  · rw [if_neg h]
    simp only [List.length_append, List.length_replicate, List.length_cons,
      List.length_nil]
    omega

theorem getD_setIdx_self (c : Column) (i : Nat) (v : Cell) :
    (Column.setIdx c i v).getD i none = v := by
  unfold Column.setIdx
  by_cases h : i < c.length
  · rw [if_pos h, List.getD_eq_getElem?_getD, List.getElem?_set_self (by omega)]
    rfl
  · have hlen : (c ++ List.replicate (i - c.length) (none : Cell)).length = i := by
      rw [List.length_append, List.length_replicate]
      omega
    rw [if_neg h, List.getD_eq_getElem?_getD,
      List.getElem?_append_right (le_of_eq hlen), hlen]
    simp

theorem getD_setIdx_ne (c : Column) (i j : Nat) (v : Cell) (h : j ≠ i) :
    (Column.setIdx c i v).getD j none = c.getD j none := by
  unfold Column.setIdx
  by_cases hi : i < c.length
  · rw [if_pos hi, List.getD_eq_getElem?_getD, List.getElem?_set_ne (Ne.symm h),
      ← List.getD_eq_getElem?_getD]
  · have hlen : (c ++ List.replicate (i - c.length) (none : Cell)).length = i := by
      rw [List.length_append, List.length_replicate]
      omega
    rw [if_neg hi]
    by_cases hj : j < c.length
    · rw [List.getD_eq_getElem?_getD,
        List.getElem?_append_left (by rw [hlen]; omega),
        List.getElem?_append_left hj, ← List.getD_eq_getElem?_getD]
    · rw [getD_none_of_le c j (by omega)]
      by_cases hji : j < i
      · rw [List.getD_eq_getElem?_getD,
          List.getElem?_append_left (by rw [hlen]; omega),
          List.getElem?_append_right (by omega), List.getElem?_replicate]
        split <;> rfl
      · rw [getD_none_of_le]
        rw [List.length_append, hlen, List.length_cons, List.length_nil]
        omega

theorem jsGet_map_snd {α β : Type} (f : α → β) (o : JSObj α) (k : String) :
    jsGet (o.map (fun p => (p.1, f p.2))) k = (jsGet o k).map f := by
  induction o with
  | nil => rfl
  | cons p rest ih =>
    by_cases hp : p.1 = k
    · simp [jsGet, hp]
    · simp [jsGet, hp, ih]

theorem foldl_pair_fst {α β γ : Type} (g : α → γ → α) (h : β → γ → β)
    (l : List γ) (x0 : α) (y0 : β) :
    (l.foldl (fun a p => (g a.1 p, h a.2 p)) (x0, y0)).1 = l.foldl g x0 := by
  induction l generalizing x0 y0 with
  | nil => rfl
  | cons p rest ih =>
    rw [List.foldl_cons, List.foldl_cons]
    exact ih _ _

theorem foldl_pair_snd {α β γ : Type} (g : α → γ → α) (h : β → γ → β)
    (l : List γ) (x0 : α) (y0 : β) :
    (l.foldl (fun a p => (g a.1 p, h a.2 p)) (x0, y0)).2 = l.foldl h y0 := by
  induction l generalizing x0 y0 with
  | nil => rfl
  | cons p rest ih =>
    rw [List.foldl_cons, List.foldl_cons]
    exact ih _ _

theorem foldl_const_snd_last {α : Type} (f : α → Nat) (l : List α) (n0 : Nat)
    (h : l ≠ []) :
    l.foldl (fun _ p => f p) n0 = f (l.getLast h) := by
  induction l generalizing n0 with
  | nil => exact absurd rfl h
  | cons p rest ih =>
    cases rest with
    | nil => rfl
    | cons q rest2 =>
      rw [List.foldl_cons, List.getLast_cons (List.cons_ne_nil q rest2)]
      exact ih _ (List.cons_ne_nil q rest2)

theorem foldl_max_init_le {α : Type} (f : α → Nat) (l : List α) (n0 : Nat) :
    n0 ≤ l.foldl (fun m q => max m (f q)) n0 := by
  induction l generalizing n0 with
  | nil => exact le_refl n0
  | cons q rest ih =>
    rw [List.foldl_cons]
    exact le_trans (le_max_left _ _) (ih _)

theorem foldl_max_le {α : Type} (f : α → Nat) (l : List α) (n0 : Nat) :
    ∀ p ∈ l, f p ≤ l.foldl (fun m q => max m (f q)) n0 := by
  induction l generalizing n0 with
  | nil => intro p hp; cases hp
  | cons q rest ih =>
    intro p hp
    rcases List.mem_cons.mp hp with h1 | h1
    · subst h1
      rw [List.foldl_cons]
      exact le_trans (le_max_right _ _) (foldl_max_init_le f rest _)
    · exact ih _ p h1

theorem jsGet_foldl_set_notMem {β : Type}
    (F : String × β → Option Column → Column)
    (l : List (String × β)) (cs : JSObj Column) (name : String)
    (h : name ∉ l.map Prod.fst) :
    jsGet (l.foldl (fun s p => jsSet s p.1 (F p (jsGet s p.1))) cs) name
      = jsGet cs name := by
  induction l generalizing cs with
  | nil => rfl
  | cons p rest ih =>
    rw [List.map_cons] at h
    have hne : name ≠ p.1 := fun he => h (he ▸ List.mem_cons_self _ _)
    have hrest : name ∉ rest.map Prod.fst :=
      fun hm => h (List.mem_cons_of_mem _ hm)
    rw [List.foldl_cons, ih _ hrest, jsGet_jsSet_ne _ _ _ _ hne]

theorem jsGet_foldl_set_mem {β : Type}
    (F : String × β → Option Column → Column)
    (l : List (String × β)) (cs : JSObj Column) (k : String) (v : β)
    (hnd : (l.map Prod.fst).Nodup) (hmem : (k, v) ∈ l) :
    jsGet (l.foldl (fun s p => jsSet s p.1 (F p (jsGet s p.1))) cs) k
      = some (F (k, v) (jsGet cs k)) := by
  induction l generalizing cs with
  | nil => cases hmem
  | cons p rest ih =>
    rw [List.map_cons, List.nodup_cons] at hnd
    rw [List.foldl_cons]
    rcases List.mem_cons.mp hmem with h1 | h1
    · have hp : p = (k, v) := h1.symm
      subst hp
      have hk : k ∉ rest.map Prod.fst := hnd.1
      rw [jsGet_foldl_set_notMem F rest _ k hk, jsGet_jsSet_self]
    · have hpk : p.1 ≠ k := by
        intro he
        exact hnd.1 (he ▸ List.mem_map.mpr ⟨(k, v), h1, rfl⟩)
      rw [ih _ hnd.2 h1, jsGet_jsSet_ne _ _ _ _ (Ne.symm hpk)]

theorem length_spliceIns (c : Column) (i : Nat) (v : Cell) :
    (Column.spliceIns c i v).length = c.length + 1 := by
  unfold Column.spliceIns
  rw [List.length_append, List.length_take, List.length_cons,
    List.length_drop]
  omega

theorem getD_spliceIns_lt (c : Column) (i j : Nat) (v : Cell)
    (hj : j < i) (hjc : j < c.length) :
    (Column.spliceIns c i v).getD j none = c.getD j none := by
  unfold Column.spliceIns
  rw [List.getD_eq_getElem?_getD,
    List.getElem?_append_left (by rw [List.length_take]; omega),
    List.getElem?_take_of_lt hj, ← List.getD_eq_getElem?_getD]

theorem getD_spliceIns_self (c : Column) (i : Nat) (v : Cell)
    (h : i ≤ c.length) :
    (Column.spliceIns c i v).getD i none = v := by
  unfold Column.spliceIns
  have hlen : (c.take i).length = i := by rw [List.length_take]; omega
  rw [List.getD_eq_getElem?_getD,
    List.getElem?_append_right (le_of_eq hlen), hlen]
  simp

theorem getD_spliceIns_shift (c : Column) (i j : Nat) (v : Cell)
    (hi : i ≤ c.length) (hij : i ≤ j) :
    (Column.spliceIns c i v).getD (j + 1) none = c.getD j none := by
  unfold Column.spliceIns
  have hlen : (c.take i).length = i := by rw [List.length_take]; omega
  rw [List.getD_eq_getElem?_getD,
    List.getElem?_append_right (by omega : (c.take i).length ≤ j + 1)]
  have hidx : j + 1 - (c.take i).length = (j - i) + 1 := by omega
  rw [hidx]
  simp only [List.getElem?_cons_succ]
  rw [List.getElem?_drop]
  have hsum : i + (j - i) = j := by omega
  rw [hsum, ← List.getD_eq_getElem?_getD]

/-! Lemmas about the DataTableCore operations. -/

open DataTableCore

/-- The padding invariant of the spec: every array-backed column has
exactly `rowCount` slots. -/
abbrev colsNormalized (t : DataTableCore) : Prop :=
  ∀ p ∈ t.columns, p.2.length = t.rowCount

theorem fireAndTag_rowCount (t : DataTableCore) (e : String) (s : Bool) :
    (fireAndTag t e s).rowCount = t.rowCount := by
  unfold fireAndTag
  split <;> rfl

theorem fireAndTag_columns (t : DataTableCore) (e : String) (s : Bool) :
    (fireAndTag t e s).columns = t.columns := by
  unfold fireAndTag
  split <;> rfl

theorem fireAndTag_true (t : DataTableCore) (e : String) :
    fireAndTag t e true = t := rfl

theorem applyRowCount_rowCount (t : DataTableCore) (rc : Nat) :
    (applyRowCount t rc).rowCount = rc := rfl

theorem applyRowCount_jsGet (t : DataTableCore) (rc : Nat) (name : String) :
    jsGet (applyRowCount t rc).columns name
      = (jsGet t.columns name).map (fun c => Column.setLength c rc) :=
  jsGet_map_snd (fun c => Column.setLength c rc) t.columns name

theorem colsNormalized_applyRowCount (t : DataTableCore) (rc : Nat) :
    colsNormalized (applyRowCount t rc) := by
  intro p hp
  unfold applyRowCount at hp
  simp only at hp
  obtain ⟨q, _, hq⟩ := List.mem_map.mp hp
  rw [← hq]
  exact length_setLength q.2 rc

theorem colsNormalized_fireAndTag (t : DataTableCore) (e : String) (s : Bool)
    (h : colsNormalized t) : colsNormalized (fireAndTag t e s) := by
  unfold fireAndTag
  split
  · exact h
  · exact h

theorem setColumns_rowCount (t : DataTableCore) (cols : JSObj Column)
    (silent : Bool) :
    (setColumns t cols silent).rowCount
      = cols.foldl (fun _ p => p.2.length) t.rowCount := by
  unfold setColumns
  rw [fireAndTag_rowCount, applyRowCount_rowCount]
  exact foldl_pair_snd (fun o (p : String × Column) => jsSet o p.1 p.2)
    (fun _ p => p.2.length) cols t.columns t.rowCount

theorem colsNormalized_setColumns (t : DataTableCore) (cols : JSObj Column)
    (silent : Bool) : colsNormalized (setColumns t cols silent) := by
  unfold setColumns
  exact colsNormalized_fireAndTag _ _ _ (colsNormalized_applyRowCount _ _)

theorem colsNormalized_mkDataTableCore (optColumns : JSObj Column)
    (optId : Option String) (k0 : Nat) :
    colsNormalized (mkDataTableCore optColumns optId k0) := by
  unfold mkDataTableCore
  exact colsNormalized_applyRowCount _ _

/-- The column value stored by one iteration of the setRow loop. -/
def setRowCell (rowIndex indexRowCount : Nat) (insert : Bool)
    (oc : Option Column) (v : Cell) : Column :=
  let column := oc.getD (List.replicate indexRowCount none)
  if insert then Column.spliceIns column rowIndex v
  else Column.setIdx column rowIndex v

theorem setRowStep_eq_set (rowIndex irc : Nat) (ins : Bool) :
    setRowStep rowIndex irc ins =
      fun s p =>
        jsSet s p.1
          ((fun (q : String × Cell) oc => setRowCell rowIndex irc ins oc q.2)
            p (jsGet s p.1)) := by
  funext s p
  rfl

theorem setRow_jsGet_notMem (rowIndex irc : Nat) (ins : Bool)
    (row : JSObj Cell) (cs : JSObj Column) (name : String)
    (h : name ∉ row.map Prod.fst) :
    jsGet (row.foldl (setRowStep rowIndex irc ins) cs) name
      = jsGet cs name := by
  rw [setRowStep_eq_set]
  exact jsGet_foldl_set_notMem
    (fun (q : String × Cell) oc => setRowCell rowIndex irc ins oc q.2)
    row cs name h

theorem setRow_jsGet_mem (rowIndex irc : Nat) (ins : Bool)
    (row : JSObj Cell) (cs : JSObj Column) (k : String) (v : Cell)
    (hnd : (row.map Prod.fst).Nodup) (hmem : (k, v) ∈ row) :
    jsGet (row.foldl (setRowStep rowIndex irc ins) cs) k
      = some (setRowCell rowIndex irc ins (jsGet cs k) v) := by
  rw [setRowStep_eq_set]
  exact jsGet_foldl_set_mem
    (fun (q : String × Cell) oc => setRowCell rowIndex irc ins oc q.2)
    row cs k v hnd hmem

theorem length_setRowCell_false_eq (rc rowIndex : Nat) (oc : Option Column)
    (v : Cell) (h : rowIndex + 1 = rc)
    (hoc : ∀ c, oc = some c → c.length = rc) :
    (setRowCell rowIndex rc false oc v).length = rc := by
  unfold setRowCell
  simp only [if_neg Bool.false_ne_true]
  cases oc with
  | none =>
    rw [Option.getD_none, length_setIdx, List.length_replicate]
    omega
  | some c =>
    rw [Option.getD_some, length_setIdx, hoc c rfl]
    omega

theorem setRow_fold_normalized_eq (row : JSObj Cell) (cs : JSObj Column)
    (rc rowIndex : Nat) (h : rowIndex + 1 = rc)
    (hcs : ∀ p ∈ cs, p.2.length = rc) :
    ∀ q ∈ row.foldl (setRowStep rowIndex rc false) cs, q.2.length = rc := by
  induction row generalizing cs with
  | nil => exact hcs
  | cons p rest ih =>
    rw [List.foldl_cons, setRowStep_eq_set]
    apply ih
    intro q hq
    rcases mem_jsSet hq with h1 | h1
    · rw [h1]
      exact length_setRowCell_false_eq rc rowIndex (jsGet cs p.1) p.2 h
        (fun c hc => hcs (p.1, c) (jsGet_mem hc))
    · exact hcs q h1

theorem setRow_fold_normalized_existing (row : JSObj Cell) (cs : JSObj Column)
    (rc rowIndex irc : Nat) (hlt : rowIndex < rc)
    (hcs : ∀ p ∈ cs, p.2.length = rc)
    (hex : ∀ p ∈ row, (jsGet cs p.1).isSome) :
    ∀ q ∈ row.foldl (setRowStep rowIndex irc false) cs, q.2.length = rc := by
  induction row generalizing cs with
  | nil => exact hcs
  | cons p rest ih =>
    rw [List.foldl_cons, setRowStep_eq_set]
    obtain ⟨c, hc⟩ :=
      Option.isSome_iff_exists.mp (hex p (List.mem_cons_self p rest))
    have hclen : c.length = rc := hcs (p.1, c) (jsGet_mem hc)
    apply ih
    · intro q hq
      rcases mem_jsSet hq with h1 | h1
      · rw [h1]
        simp only
        unfold setRowCell
        rw [hc, Option.getD_some]
        simp only [if_neg Bool.false_ne_true]
        rw [length_setIdx, hclen]
        omega
      · exact hcs q h1
    · intro q hq
      exact isSome_jsGet_jsSet _ _ _ _ (hex q (List.mem_cons_of_mem p hq))

theorem colsNormalized_setRow (t : DataTableCore) (row : JSObj Cell)
    (rowIndexOpt : Option Nat) (insert silent : Bool)
    (hn : colsNormalized t)
    (hcond : insert = true ∨ t.rowCount ≤ rowIndexOpt.getD t.rowCount + 1 ∨
      ∀ p ∈ row, (jsGet t.columns p.1).isSome) :
    colsNormalized (setRow t row rowIndexOpt insert silent) := by
  cases insert with
  | true =>
    simp only [setRow, if_true]
    apply colsNormalized_fireAndTag
    rw [if_pos (Nat.lt_succ_self t.rowCount)]
    exact colsNormalized_applyRowCount _ _
  | false =>
    simp only [setRow, Bool.false_eq_true, if_false]
    apply colsNormalized_fireAndTag
    split
    · exact colsNormalized_applyRowCount _ _
    · rename_i hnotlt
      rcases hcond with h1 | h2 | h3
      · exact absurd h1 (by simp)
      · have heq : rowIndexOpt.getD t.rowCount + 1 = t.rowCount := by omega
        intro p hp
        rw [heq] at hp
        exact setRow_fold_normalized_eq row t.columns t.rowCount
          (rowIndexOpt.getD t.rowCount) heq hn p hp
      · have hlt : rowIndexOpt.getD t.rowCount < t.rowCount := by omega
        intro p hp
        exact setRow_fold_normalized_existing row t.columns t.rowCount
          (rowIndexOpt.getD t.rowCount) (rowIndexOpt.getD t.rowCount + 1)
          hlt hn h3 p hp

/-- The column stored under a name, defaulting to an empty array for a
missing property (used only to state theorems without an existential). -/
def colAt (t : DataTableCore) (name : String) : Column :=
  (jsGet t.columns name).getD []

/-- The cell this.columns[name]?.[j]: undefined when the column is
missing, the slot is a hole, or the index is out of range. -/
def cellAt (t : DataTableCore) (name : String) (j : Nat) : Cell :=
  (jsGet t.columns name).bind (fun c => c.getD j none)

theorem getD_getD_replicate (oc : Option Column) (irc j : Nat) :
    (oc.getD (List.replicate irc none)).getD j none
      = oc.bind (fun c => c.getD j none) := by
  cases oc with
  | none =>
    show (List.replicate irc (none : Cell)).getD j none = none
    rw [List.getD_eq_getElem?_getD, List.getElem?_replicate]
    split <;> rfl
  | some c => rfl

/-! Concrete tables used by the claim witnesses and counterexamples. -/

/-- Helper building a column of plain number cells. -/
def colOfInts (l : List Int) : Column :=
  l.map (fun n => some (CellValue.numVal n))

/-- A column collection whose first column is the longest and whose last
column is shorter. -/
def c1cols : JSObj Column := [("a", colOfInts [1, 2]), ("b", colOfInts [3])]

/-- The example table of the spec: columns a = [1, 2] and b = [3, 4]. -/
def tExample : DataTableCore :=
  mkDataTableCore [("a", colOfInts [1, 2]), ("b", colOfInts [3, 4])] none 0

/-! Claim theorems. -/

/-- C1, counterexample: setColumns on the collection a = [1, 2],
b = [3] leaves rowCount = 1, the length of the LAST enumerated column,
while the maximum supplied length is 2 — the loop overwrites the running
row count with each column's length instead of taking a maximum. -/
theorem claim_C1_counterexample :
    (setColumns (mkDataTableCore [] none 0) c1cols false).rowCount = 1 ∧
    (c1cols.map (fun p => p.2.length)).foldr max 0 = 2 ∧
    (setColumns (mkDataTableCore [] none 0) c1cols false).rowCount ≠
      (c1cols.map (fun p => p.2.length)).foldr max 0 := by decide

/-- C1, amended: after setColumns with a non-empty collection, rowCount
equals the length of the last column enumerated in the collection, not
the maximum length. -/
theorem claim_C1_rowCount_last (t : DataTableCore) (cols : JSObj Column)
    (silent : Bool) (h : cols ≠ []) :
    (setColumns t cols silent).rowCount = (cols.getLast h).2.length := by
  rw [setColumns_rowCount]
  exact foldl_const_snd_last (fun p => p.2.length) cols t.rowCount h

/-- C1, witness: the amended statement evaluated on the concrete
collection a = [1, 2], b = [3]. -/
theorem claim_C1_rowCount_last_witness :
    (setColumns (mkDataTableCore [] none 0) c1cols false).rowCount
      = (c1cols.getLast (by decide)).2.length :=
  claim_C1_rowCount_last (mkDataTableCore [] none 0) c1cols false (by decide)

/-- C2, counterexample: setRow writing a NEW column b at index 0 on a
table with rowCount 3 creates b with length 1 and never calls
applyRowCount, so not every array column has length rowCount. -/
theorem claim_C2_counterexample :
    ¬ colsNormalized
      (setRow (mkDataTableCore [("a", colOfInts [1, 2, 3])] none 0)
        [("b", some (CellValue.numVal 9))] (some 0) false false) := by
  decide

/-- C2, amended: every array column has length rowCount after
construction, setColumn and setColumns unconditionally, and after setRow
provided the row is inserted, or targets an index at or beyond
rowCount - 1, or names only columns that already exist; a non-insert
setRow of a new column at a lower index leaves that column shorter than
rowCount. -/
theorem claim_C2_normalized :
    (∀ optCols optId k0, colsNormalized (mkDataTableCore optCols optId k0)) ∧
    (∀ t cols silent, colsNormalized (setColumns t cols silent)) ∧
    (∀ t name c silent, colsNormalized (setColumn t name c silent)) ∧
    (∀ t row rowIndexOpt insert silent, colsNormalized t →
      (insert = true ∨ t.rowCount ≤ rowIndexOpt.getD t.rowCount + 1 ∨
        ∀ p ∈ row, (jsGet t.columns p.1).isSome) →
      colsNormalized (setRow t row rowIndexOpt insert silent)) :=
  ⟨colsNormalized_mkDataTableCore, colsNormalized_setColumns,
    fun t name c silent => colsNormalized_setColumns t [(name, c)] silent,
    colsNormalized_setRow⟩

/-- C2, witness: the setRow clause applied to the example table at the
out-of-range index 5. -/
theorem claim_C2_normalized_witness :
    colsNormalized
      (setRow tExample [("b", some (CellValue.numVal 9))] (some 5)
        false false) :=
  claim_C2_normalized.2.2.2 tExample [("b", some (CellValue.numVal 9))]
    (some 5) false false (by decide) (Or.inr (Or.inl (by decide)))

/-- C4: setColumns with a silent event detail leaves the version tag and
the fired-event log unchanged; without silent it appends the
afterSetColumns notification and replaces the version tag with the next
uniqueKey, which differs from the current tag whenever the tag precedes
the key counter (true from construction on). -/
theorem claim_C4_versionTag (t : DataTableCore) (cols : JSObj Column) :
    ((setColumns t cols true).versionTag = t.versionTag ∧
      (setColumns t cols true).firedEvents = t.firedEvents) ∧
    (t.versionTag < t.keyCounter →
      (setColumns t cols false).versionTag ≠ t.versionTag ∧
      (setColumns t cols false).firedEvents
        = t.firedEvents ++ ["afterSetColumns"]) := by
  refine ⟨⟨rfl, rfl⟩, fun h => ⟨?_, rfl⟩⟩
  have hv : (setColumns t cols false).versionTag = t.keyCounter := rfl
  rw [hv]
  omega

/-- C4, witness: on the example table the non-silent call changes the
tag. -/
theorem claim_C4_versionTag_witness :
    (setColumns tExample [("a", colOfInts [7])] false).versionTag
      ≠ tExample.versionTag :=
  ((claim_C4_versionTag tExample [("a", colOfInts [7])]).2 (by decide)).1

/-- C6: getRow returns one entry per requested name, the k-th entry is
the stored column value of the k-th name at the row index, an unknown
name or an out-of-range index yields an undefined entry, and the default
name list is the full key list; the getters are total functions. -/
theorem claim_C6_getRow (t : DataTableCore) (i : Nat) (names : List String)
    (k : Nat) (hk : k < names.length) :
    (getRow t i (some names)).length = names.length ∧
    (getRow t i (some names)).getD k none
      = (jsGet t.columns (names.getD k "")).bind (fun col => col.getD i none) ∧
    (jsGet t.columns (names.getD k "") = none →
      (getRow t i (some names)).getD k none = none) ∧
    (∀ c, jsGet t.columns (names.getD k "") = some c → c.length ≤ i →
      (getRow t i (some names)).getD k none = none) ∧
    getRow t i none = getRow t i (some (t.columns.map Prod.fst)) := by
  have hname : names.getD k "" = names[k] := by
    rw [List.getD_eq_getElem?_getD, List.getElem?_eq_getElem hk]
    rfl
  have hmain : (getRow t i (some names)).getD k none
      = (jsGet t.columns (names.getD k "")).bind
          (fun col => col.getD i none) := by
    unfold getRow
    rw [Option.getD_some, List.getD_eq_getElem?_getD, List.getElem?_map,
      List.getElem?_eq_getElem hk, hname]
    rfl
  refine ⟨?_, hmain, ?_, ?_, rfl⟩
  · unfold getRow
    rw [Option.getD_some, List.length_map]
  · intro hnone
    rw [hmain, hnone]
    rfl
  · intro c hc hlen
    rw [hmain, hc]
    exact getD_none_of_le c i hlen

/-- C6, witness: on the example table, reading row 0 for the names a and
zz (the latter unknown). -/
theorem claim_C6_getRow_witness :
    (getRow tExample 0 (some ["a", "zz"])).length = 2 ∧
    (getRow tExample 0 (some ["a", "zz"])).getD 1 none
      = (jsGet tExample.columns (["a", "zz"].getD 1 "")).bind
          (fun col => col.getD 0 none) :=
  ⟨(claim_C6_getRow tExample 0 ["a", "zz"] 1 (by decide)).1,
    (claim_C6_getRow tExample 0 ["a", "zz"] 1 (by decide)).2.1⟩

/-- C7: on the table a = [1, 2], b = [3, 4], a setRow of a = 5, b = 6
with no index and no insert flag appends row 2: column a becomes
[1, 2, 5], the new row reads back as [5, 6], and rowCount becomes 3. -/
theorem claim_C7_append_row :
    (setRow tExample
      [("a", some (CellValue.numVal 5)), ("b", some (CellValue.numVal 6))]
      none false false).rowCount = 3 ∧
    getColumn
      (setRow tExample
        [("a", some (CellValue.numVal 5)), ("b", some (CellValue.numVal 6))]
        none false false) "a" = some (colOfInts [1, 2, 5]) ∧
    getRow
      (setRow tExample
        [("a", some (CellValue.numVal 5)), ("b", some (CellValue.numVal 6))]
        none false false) 2 none
      = [some (CellValue.numVal 5), some (CellValue.numVal 6)] := by
  decide

/-- C8: a non-insert setRow at an index at or beyond the current
rowCount grows rowCount to rowIndex + 1 and leaves every cell of the
previously existing rows of every pre-existing column unchanged. -/
theorem claim_C8_grow_beyond (t : DataTableCore) (row : JSObj Cell)
    (rowIndex : Nat) (silent : Bool)
    (hnd : (row.map Prod.fst).Nodup)
    (hidx : t.rowCount ≤ rowIndex) :
    (setRow t row (some rowIndex) false silent).rowCount = rowIndex + 1 ∧
    ∀ name c, jsGet t.columns name = some c →
      ∀ j, j < t.rowCount →
        (jsGet (setRow t row (some rowIndex) false silent).columns
            name).isSome = true ∧
        (colAt (setRow t row (some rowIndex) false silent) name).getD j none
          = c.getD j none := by
  have hlt : t.rowCount < rowIndex + 1 := by omega
  simp only [setRow, Option.getD_some, Bool.false_eq_true, if_false,
    if_pos hlt, fireAndTag_rowCount, fireAndTag_columns,
    applyRowCount_rowCount, colAt]
  refine ⟨by trivial, ?_⟩
  intro name c hc j hj
  rw [applyRowCount_jsGet]
  by_cases hmem : name ∈ row.map Prod.fst
  · obtain ⟨p, hp, hpe⟩ := List.mem_map.mp hmem
    have hpair : (name, p.2) ∈ row := by
      cases p
      simp only at hpe
      subst hpe
      exact hp
    rw [setRow_jsGet_mem rowIndex (rowIndex + 1) false row t.columns name
      p.2 hnd hpair, hc]
    simp only [Option.map_some', Option.isSome_some, Option.getD_some,
      true_and, setRowCell, Bool.false_eq_true, if_false]
    rw [getD_setLength _ _ j (by omega),
      getD_setIdx_ne c rowIndex j p.2 (by omega)]
  · rw [setRow_jsGet_notMem rowIndex (rowIndex + 1) false row t.columns
      name hmem, hc]
    simp only [Option.map_some', Option.isSome_some, Option.getD_some,
      true_and]
    exact getD_setLength c (rowIndex + 1) j (by omega)

/-- C8, witness: growing the example table by a non-insert write of a
new column b at index 5 keeps row 1 of column a. -/
theorem claim_C8_grow_beyond_witness :
    (setRow tExample [("b", some (CellValue.numVal 9))] (some 5)
        false false).rowCount = 6 ∧
    (colAt
        (setRow tExample [("b", some (CellValue.numVal 9))] (some 5)
          false false) "a").getD 1 none
      = (colOfInts [1, 2]).getD 1 none :=
  ⟨(claim_C8_grow_beyond tExample [("b", some (CellValue.numVal 9))] 5 false
      (by decide) (by decide)).1,
    ((claim_C8_grow_beyond tExample [("b", some (CellValue.numVal 9))] 5
        false (by decide) (by decide)).2 "a" (colOfInts [1, 2]) (by decide)
      1 (by decide)).2⟩

/-- C3, counterexample: inserting a = 9 at row index 5 into the
two-row table a = [1, 2] does NOT place the value at index 5 — splice
clamps the position to the array length, the value lands at index 2, and
the truncation to rowCount 3 leaves index 5 out of range. -/
theorem claim_C3_counterexample :
    (setRow (mkDataTableCore [("a", colOfInts [1, 2])] none 0)
      [("a", some (CellValue.numVal 9))] (some 5) true false).rowCount = 3 ∧
    getRow
      (setRow (mkDataTableCore [("a", colOfInts [1, 2])] none 0)
        [("a", some (CellValue.numVal 9))] (some 5) true false) 5
      (some ["a"]) = [none] ∧
    getColumn
      (setRow (mkDataTableCore [("a", colOfInts [1, 2])] none 0)
        [("a", some (CellValue.numVal 9))] (some 5) true false) "a"
      = some (colOfInts [1, 2, 9]) := by
  decide

/-- C3, amended: for a row index within the table (rowIndex at most
rowCount) and a normalized table, an insert setRow places each named
cell at rowIndex, shifts every subsequent row down by one position in
every affected column, and grows rowCount by exactly one. -/
theorem claim_C3_insert_shifts (t : DataTableCore) (row : JSObj Cell)
    (rowIndex : Nat) (silent : Bool)
    (hnd : (row.map Prod.fst).Nodup)
    (hnorm : colsNormalized t)
    (hidx : rowIndex ≤ t.rowCount) :
    (setRow t row (some rowIndex) true silent).rowCount = t.rowCount + 1 ∧
    ∀ name v, (name, v) ∈ row →
      (jsGet (setRow t row (some rowIndex) true silent).columns
          name).isSome = true ∧
      (colAt (setRow t row (some rowIndex) true silent) name).length
        = t.rowCount + 1 ∧
      (colAt (setRow t row (some rowIndex) true silent) name).getD
          rowIndex none = v ∧
      (∀ j, j < rowIndex →
        (colAt (setRow t row (some rowIndex) true silent) name).getD j none
          = cellAt t name j) ∧
      (∀ j, rowIndex ≤ j → j < t.rowCount →
        (colAt (setRow t row (some rowIndex) true silent) name).getD
            (j + 1) none = cellAt t name j) := by
  have hlt : t.rowCount < t.rowCount + 1 := Nat.lt_succ_self _
  simp only [setRow, Option.getD_some, if_true, if_pos hlt,
    fireAndTag_rowCount, fireAndTag_columns, applyRowCount_rowCount, colAt]
  refine ⟨by trivial, ?_⟩
  intro name v hpair
  rw [applyRowCount_jsGet,
    setRow_jsGet_mem rowIndex (t.rowCount + 1) true row t.columns name
      v hnd hpair]
  simp only [Option.map_some', Option.isSome_some, Option.getD_some,
    true_and, setRowCell, if_true]
  have hc0 : rowIndex ≤
      ((jsGet t.columns name).getD
        (List.replicate (t.rowCount + 1) none)).length := by
    cases hcase : jsGet t.columns name with
    | none =>
      rw [Option.getD_none, List.length_replicate]
      omega
    | some c =>
      rw [Option.getD_some]
      rw [hnorm (name, c) (jsGet_mem hcase)]
      exact hidx
  refine ⟨?_, ?_, ?_, ?_⟩
  · rw [length_setLength]
  · rw [getD_setLength _ _ rowIndex (by omega),
      getD_spliceIns_self _ rowIndex v hc0]
  · intro j hj
    rw [getD_setLength _ _ j (by omega),
      getD_spliceIns_lt _ rowIndex j v hj (by omega),
      getD_getD_replicate]
    rfl
  · intro j hj1 hj2
    rw [getD_setLength _ _ (j + 1) (by omega),
      getD_spliceIns_shift _ rowIndex j v hc0 hj1,
      getD_getD_replicate]
    rfl

/-- C3, witness: inserting a = 9 at index 1 of the example table. -/
theorem claim_C3_insert_shifts_witness :
    (setRow tExample [("a", some (CellValue.numVal 9))] (some 1)
        true false).rowCount = 3 ∧
    (colAt
        (setRow tExample [("a", some (CellValue.numVal 9))] (some 1)
          true false) "a").getD 1 none = some (CellValue.numVal 9) ∧
    (colAt
        (setRow tExample [("a", some (CellValue.numVal 9))] (some 1)
          true false) "a").getD 2 none = cellAt tExample "a" 1 :=
  ⟨(claim_C3_insert_shifts tExample [("a", some (CellValue.numVal 9))] 1
      false (by decide) (by decide) (by decide)).1,
    ((claim_C3_insert_shifts tExample [("a", some (CellValue.numVal 9))] 1
        false (by decide) (by decide) (by decide)).2 "a"
      (some (CellValue.numVal 9)) (by decide)).2.2.1,
    ((claim_C3_insert_shifts tExample [("a", some (CellValue.numVal 9))] 1
        false (by decide) (by decide) (by decide)).2 "a"
      (some (CellValue.numVal 9)) (by decide)).2.2.2.2 1 (by decide)
      (by decide)⟩

/-- C10: construction takes rowCount as the maximum supplied column
length (the running max over the enumeration, which bounds every
column), and stores a sliced copy of each supplied column padded to that
rowCount; the caller's arrays are copied by slice, so the table holds
its own values. -/
theorem claim_C10_ctor (optCols : JSObj Column) (optId : Option String)
    (k0 : Nat) (hnd : (optCols.map Prod.fst).Nodup) :
    (mkDataTableCore optCols optId k0).rowCount
      = optCols.foldl (fun m p => max m p.2.length) 0 ∧
    (∀ p ∈ optCols,
      p.2.length ≤ (mkDataTableCore optCols optId k0).rowCount) ∧
    ∀ name c, (name, c) ∈ optCols →
      jsGet (mkDataTableCore optCols optId k0).columns name
        = some
            (Column.setLength c ((mkDataTableCore optCols optId k0).rowCount)) := by
  have hrc : (mkDataTableCore optCols optId k0).rowCount
      = optCols.foldl (fun m p => max m p.2.length) 0 := by
    simp only [mkDataTableCore, applyRowCount_rowCount]
    exact foldl_pair_snd (fun o (p : String × Column) => jsSet o p.1 p.2)
      (fun m p => max m p.2.length) optCols [] 0
  refine ⟨hrc, ?_, ?_⟩
  · intro p hp
    rw [hrc]
    exact foldl_max_le (fun p => p.2.length) optCols 0 p hp
  · intro name c hmem
    rw [hrc]
    simp only [mkDataTableCore]
    rw [applyRowCount_jsGet]
    have hfst :
        (optCols.foldl
            (fun a p => (jsSet a.1 p.1 p.2, max a.2 p.2.length))
            (([] : JSObj Column), 0)).1
          = optCols.foldl (fun o p => jsSet o p.1 p.2) [] :=
      foldl_pair_fst (fun o (p : String × Column) => jsSet o p.1 p.2)
        (fun m p => max m p.2.length) optCols [] 0
    rw [hfst]
    have hget : jsGet (optCols.foldl (fun o p => jsSet o p.1 p.2) []) name
        = some c :=
      jsGet_foldl_set_mem (fun (q : String × Column) _ => q.2) optCols []
        name c hnd hmem
    rw [hget]
    have hsnd :
        (optCols.foldl
            (fun a p => (jsSet a.1 p.1 p.2, max a.2 p.2.length))
            (([] : JSObj Column), 0)).2
          = optCols.foldl (fun m p => max m p.2.length) 0 :=
      foldl_pair_snd (fun o (p : String × Column) => jsSet o p.1 p.2)
        (fun m p => max m p.2.length) optCols [] 0
    rw [hsnd]
    rfl

/-- C10, witness: the two-column collection with the longer column
first. -/
theorem claim_C10_ctor_witness :
    (mkDataTableCore c1cols none 0).rowCount = 2 ∧
    jsGet (mkDataTableCore c1cols none 0).columns "b"
      = some
          (Column.setLength (colOfInts [3])
            (mkDataTableCore c1cols none 0).rowCount) :=
  ⟨((claim_C10_ctor c1cols none 0 (by decide)).1).trans (by decide),
    (claim_C10_ctor c1cols none 0 (by decide)).2.2 "b" (colOfInts [3])
      (by decide)⟩

/-! Sync registration invariants for C5. -/

namespace Sync

/-- The handler half of the registration invariant: registered handler
ids are unique, create was invoked at most once per id, and every id
whose create hook ran is registered. -/
def handlerRegInv (s : Sync) : Prop :=
  (s.registeredSyncHandlers.map Prod.fst).Nodup ∧
  s.handlerCreates.Nodup ∧
  ∀ id ∈ s.handlerCreates, isRegisteredHandler s id = true

/-- The emitter half of the registration invariant. -/
def emitterRegInv (s : Sync) : Prop :=
  (s.registeredSyncEmitters.map Prod.fst).Nodup ∧
  s.emitterCreates.Nodup ∧
  ∀ id ∈ s.emitterCreates, isRegisteredEmitter s id = true

/-- The full registration invariant: at most one handler and one emitter
registered per identifier and at most one create invocation per
identifier. -/
def regInvariant (s : Sync) : Prop :=
  handlerRegInv s ∧ emitterRegInv s

theorem handlerRegInv_of_fields_eq (s s' : Sync)
    (h1 : s'.registeredSyncHandlers = s.registeredSyncHandlers)
    (h2 : s'.handlerCreates = s.handlerCreates)
    (hinv : handlerRegInv s) : handlerRegInv s' := by
  unfold handlerRegInv isRegisteredHandler
  rw [h1, h2]
  exact hinv

theorem emitterRegInv_of_fields_eq (s s' : Sync)
    (h1 : s'.registeredSyncEmitters = s.registeredSyncEmitters)
    (h2 : s'.emitterCreates = s.emitterCreates)
    (hinv : emitterRegInv s) : emitterRegInv s' := by
  unfold emitterRegInv isRegisteredEmitter
  rw [h1, h2]
  exact hinv

theorem startHandlerPart_emitter_fields (defaults : JSObj SyncOptionsEntry)
    (id : String) (hcfg : SyncConfigOpt HandlerConfig) (s s' : Sync)
    (h : startHandlerPart defaults id hcfg s = some s') :
    s'.registeredSyncEmitters = s.registeredSyncEmitters ∧
    s'.emitterCreates = s.emitterCreates := by
  unfold startHandlerPart at h
  split at h
  · cases h
  · cases h
    exact ⟨rfl, rfl⟩
  · injection h with h
    subst h
    split <;> exact ⟨rfl, rfl⟩

theorem startEmitterPart_handler_fields (defaults : JSObj SyncOptionsEntry)
    (id : String) (ecfg : SyncConfigOpt EmitterConfig) (s s' : Sync)
    (h : startEmitterPart defaults id ecfg s = some s') :
    s'.registeredSyncHandlers = s.registeredSyncHandlers ∧
    s'.handlerCreates = s.handlerCreates := by
  unfold startEmitterPart at h
  split at h
  · cases h
  · cases h
    exact ⟨rfl, rfl⟩
  · injection h with h
    subst h
    split <;> exact ⟨rfl, rfl⟩

theorem handlerRegInv_startHandlerPart (defaults : JSObj SyncOptionsEntry)
    (id : String) (hcfg : SyncConfigOpt HandlerConfig) (s s' : Sync)
    (hinv : handlerRegInv s)
    (h : startHandlerPart defaults id hcfg s = some s') :
    handlerRegInv s' := by
  unfold startHandlerPart at h
  split at h
  · cases h
  · cases h
    exact hinv
  · rename_i hc heq
    injection h with h
    subst h
    split
    · exact hinv
    · rename_i hreg
      have hnone : jsGet s.registeredSyncHandlers hc.id = none := by
        unfold isRegisteredHandler at hreg
        cases hg : jsGet s.registeredSyncHandlers hc.id with
        | none => rfl
        | some w =>
          rw [hg] at hreg
          exact absurd rfl hreg
      have hnotkey : hc.id ∉ s.registeredSyncHandlers.map Prod.fst :=
        (jsGet_eq_none_iff _ _).mp hnone
      have hnotcreate : hc.id ∉ s.handlerCreates := by
        intro hmem
        have := hinv.2.2 hc.id hmem
        unfold isRegisteredHandler at this
        rw [hnone] at this
        cases this
      refine ⟨?_, ?_, ?_⟩
      · show ((jsSet s.registeredSyncHandlers hc.id hc).map Prod.fst).Nodup
        rw [jsSet_of_not_mem _ _ _ hnone, List.map_append]
        rw [List.nodup_append]
        exact ⟨hinv.1, List.nodup_singleton _, by
          intro a ha hb
          simp only [List.map_cons, List.map_nil, List.mem_singleton] at hb
          rw [hb] at ha
          exact hnotkey ha⟩
      · show (s.handlerCreates ++ [hc.id]).Nodup
        rw [List.nodup_append]
        exact ⟨hinv.2.1, List.nodup_singleton _, by
          intro a ha hb
          simp only [List.mem_singleton] at hb
          rw [hb] at ha
          exact hnotcreate ha⟩
      · intro i hi
        rcases List.mem_append.mp hi with h1 | h1
        · show (jsGet (jsSet s.registeredSyncHandlers hc.id hc) i).isSome
            = true
          have hold := hinv.2.2 i h1
          unfold isRegisteredHandler at hold
          exact isSome_jsGet_jsSet _ _ _ _ hold
        · simp only [List.mem_singleton] at h1
          rw [h1]
          show (jsGet (jsSet s.registeredSyncHandlers hc.id hc) hc.id).isSome
            = true
          rw [jsGet_jsSet_self]
          rfl

theorem emitterRegInv_startEmitterPart (defaults : JSObj SyncOptionsEntry)
    (id : String) (ecfg : SyncConfigOpt EmitterConfig) (s s' : Sync)
    (hinv : emitterRegInv s)
    (h : startEmitterPart defaults id ecfg s = some s') :
    emitterRegInv s' := by
  unfold startEmitterPart at h
  split at h
  · cases h
  · cases h
    exact hinv
  · rename_i ec heq
    injection h with h
    subst h
    split
    · exact hinv
    · rename_i hreg
      have hnone : jsGet s.registeredSyncEmitters ec.id = none := by
        unfold isRegisteredEmitter at hreg
        cases hg : jsGet s.registeredSyncEmitters ec.id with
        | none => rfl
        | some w =>
          rw [hg] at hreg
          exact absurd rfl hreg
      have hnotkey : ec.id ∉ s.registeredSyncEmitters.map Prod.fst :=
        (jsGet_eq_none_iff _ _).mp hnone
      have hnotcreate : ec.id ∉ s.emitterCreates := by
        intro hmem
        have := hinv.2.2 ec.id hmem
        unfold isRegisteredEmitter at this
        rw [hnone] at this
        cases this
      refine ⟨?_, ?_, ?_⟩
      · show ((jsSet s.registeredSyncEmitters ec.id ec).map Prod.fst).Nodup
        rw [jsSet_of_not_mem _ _ _ hnone, List.map_append]
        rw [List.nodup_append]
        exact ⟨hinv.1, List.nodup_singleton _, by
          intro a ha hb
          simp only [List.map_cons, List.map_nil, List.mem_singleton] at hb
          rw [hb] at ha
          exact hnotkey ha⟩
      · show (s.emitterCreates ++ [ec.id]).Nodup
        rw [List.nodup_append]
        exact ⟨hinv.2.1, List.nodup_singleton _, by
          intro a ha hb
          simp only [List.mem_singleton] at hb
          rw [hb] at ha
          exact hnotcreate ha⟩
      · intro i hi
        rcases List.mem_append.mp hi with h1 | h1
        · show (jsGet (jsSet s.registeredSyncEmitters ec.id ec) i).isSome
            = true
          have hold := hinv.2.2 i h1
          unfold isRegisteredEmitter at hold
          exact isSome_jsGet_jsSet _ _ _ _ hold
        · simp only [List.mem_singleton] at h1
          rw [h1]
          show (jsGet (jsSet s.registeredSyncEmitters ec.id ec) ec.id).isSome
            = true
          rw [jsGet_jsSet_self]
          rfl

theorem regInvariant_startStep (defaults cfg : JSObj SyncOptionsEntry)
    (id : String) (s s' : Sync) (hinv : regInvariant s)
    (h : startStep defaults cfg (some s) id = some s') :
    regInvariant s' := by
  unfold startStep at h
  simp only [Option.some_bind] at h
  cases hh : startHandlerPart defaults id
      ((jsGet cfg id).getD
        { emitter := SyncConfigOpt.absent,
          handler := SyncConfigOpt.absent }).handler s with
  | none =>
    rw [hh] at h
    cases h
  | some sm =>
    rw [hh] at h
    rw [Option.some_bind] at h
    have hminv : regInvariant sm := by
      refine ⟨handlerRegInv_startHandlerPart _ _ _ _ _ hinv.1 hh, ?_⟩
      obtain ⟨h1, h2⟩ := startHandlerPart_emitter_fields _ _ _ _ _ hh
      exact emitterRegInv_of_fields_eq _ _ h1 h2 hinv.2
    refine ⟨?_, emitterRegInv_startEmitterPart _ _ _ _ _ hminv.2 h⟩
    obtain ⟨h1, h2⟩ := startEmitterPart_handler_fields _ _ _ _ _ h
    exact handlerRegInv_of_fields_eq _ _ h1 h2 hminv.1

theorem foldl_startStep_none (defaults cfg : JSObj SyncOptionsEntry)
    (l : List String) :
    l.foldl (startStep defaults cfg) none = none := by
  induction l with
  | nil => rfl
  | cons id rest ih =>
    rw [List.foldl_cons]
    exact ih

theorem regInvariant_start_fold (defaults cfg : JSObj SyncOptionsEntry)
    (l : List String) (s s' : Sync) (hinv : regInvariant s)
    (h : l.foldl (startStep defaults cfg) (some s) = some s') :
    regInvariant s' := by
  induction l generalizing s with
  | nil =>
    injection h with h
    subst h
    exact hinv
  | cons id rest ih =>
    rw [List.foldl_cons] at h
    cases hs : startStep defaults cfg (some s) id with
    | none =>
      rw [hs, foldl_startStep_none] at h
      cases h
    | some sm =>
      rw [hs] at h
      exact ih sm (regInvariant_startStep defaults cfg id s sm hinv hs) h

end Sync

/-- The Sync options record used by the C5 counterexample: the ids a and
b both configure a handler with the same handler id h, which is the
sharing pattern the re-registration guard exists for. -/
def c5cfg : JSObj SyncOptionsEntry :=
  [("a", { emitter := SyncConfigOpt.absent,
           handler := SyncConfigOpt.config { id := "h", payload := 1 } }),
   ("b", { emitter := SyncConfigOpt.absent,
           handler := SyncConfigOpt.config { id := "h", payload := 2 } })]

/-- The state produced by running start() on the C5 configuration. -/
def c5result : Sync :=
  (Sync.start [] (Sync.mkSync c5cfg)).getD (Sync.mkSync [])

/-- C5, counterexample: running start() with two entries sharing one
handler id evaluates new SyncHandler twice — a second instance IS
created and only then discarded by the guard, which runs after
construction, not before; only registration and the create hook are
guarded (one registered handler, one create invocation). -/
theorem claim_C5_counterexample :
    (Sync.start [] (Sync.mkSync c5cfg)).map Sync.handlerConstructions
      = some 2 ∧
    (Sync.start [] (Sync.mkSync c5cfg)).map Sync.handlerCreates
      = some ["h"] ∧
    (Sync.start [] (Sync.mkSync c5cfg)).map
      (fun s => s.registeredSyncHandlers.length) = some 1 := by
  decide

/-- C5, amended: within one Sync instance, at most one handler and at
most one emitter are REGISTERED per identifier and each entry's create
hook runs at most once per identifier, because the guard is checked
before registration and create; the guard does not prevent the
construction of a second, discarded instance. -/
theorem claim_C5_registration :
    (∀ cfg, Sync.regInvariant (Sync.mkSync cfg)) ∧
    (∀ defaults s s', Sync.regInvariant s →
      Sync.start defaults s = some s' → Sync.regInvariant s') := by
  constructor
  · intro cfg
    exact ⟨⟨List.nodup_nil, List.nodup_nil, fun i hi => absurd hi
        (List.not_mem_nil i)⟩,
      ⟨List.nodup_nil, List.nodup_nil, fun i hi => absurd hi
        (List.not_mem_nil i)⟩⟩
  · intro defaults s s' hinv h
    unfold Sync.start at h
    cases hf : (s.syncConfig.map Prod.fst).foldl
        (Sync.startStep defaults s.syncConfig) (some s) with
    | none =>
      rw [hf] at h
      cases h
    | some s1 =>
      rw [hf] at h
      injection h with h
      subst h
      have hs1 := Sync.regInvariant_start_fold defaults s.syncConfig
        (s.syncConfig.map Prod.fst) s s1 hinv hf
      exact ⟨Sync.handlerRegInv_of_fields_eq s1 _ rfl rfl hs1.1,
        Sync.emitterRegInv_of_fields_eq s1 _ rfl rfl hs1.2⟩

/-- C5, witness: the invariant holds on the state start() produces from
the C5 configuration. -/
theorem claim_C5_registration_witness : Sync.regInvariant c5result :=
  claim_C5_registration.2 [] (Sync.mkSync c5cfg) c5result
    (claim_C5_registration.1 c5cfg) rfl

/-- C9: after setPosition the visibility flag is true exactly when both
coordinates are present, and hide is setPosition with both coordinates
undefined. -/
theorem claim_C9_toolbar (tb : EditToolbar) (x y : Option Int) :
    ((EditToolbar.setPosition tb x y).isVisible = true ↔
      (x.isSome = true ∧ y.isSome = true)) ∧
    EditToolbar.hide tb = EditToolbar.setPosition tb none none := by
  refine ⟨?_, rfl⟩
  unfold EditToolbar.setPosition
  simp

end Highcharts
